import Mathlib

set_option maxRecDepth 2000

/-!
Verification development for the Liquidacion BRL-COP application.

The definitions below are a shallow embedding of the application's logic:

* number parsing (`jsParseFloat`, `parseOrZero`) embeds JavaScript
  `parseFloat(x)` and `parseFloat(x) || 0` on decimal-number strings,
  with `Option ℚ` standing for number-or-`NaN`;
* `computeOutputs` embeds the `useMemo` liquidation computation of the
  `Calculator` component, and `editRecompute` the `useEffect` recomputation
  of the `EditModal` component;
* `handleRegisterClick` / `handleAddToHistory` / `handleDeleteRecord` /
  `handleUpdateRecord` embed the record-store transitions of `Calculator`
  and `App`;
* `toFixed2`, `sanitizeCell`, `csvRow`, `handleExportCsv` embed the CSV
  export of the `History` component;
* `fetchBrlCopRate` / `getRate` embed the exchange-rate service and the
  effect that consumes it.

JavaScript numbers are modelled as exact rationals `ℚ`; machine floats
carry no further structure that the claims depend on.
-/

/-- Numeric value of a decimal digit character. -/
def digitVal (c : Char) : ℕ := c.toNat - 48

/-- Value of a list of decimal digit characters, most significant first. -/
def digitsToNat (ds : List Char) : ℕ := ds.foldl (fun a c => 10 * a + digitVal c) 0

/-- Value of a list of decimal digit characters as a rational number.  The
accumulation happens in `ℚ` directly; `digitsToRat_eq` identifies it with
`digitsToNat`. -/
def digitsToRat (ds : List Char) : ℚ := ds.foldl (fun a c => 10 * a + (digitVal c : ℚ)) 0

/-- Whitespace characters skipped by JavaScript `parseFloat`. -/
def isJsSpace (c : Char) : Bool := c == ' ' || c == '\t' || c == '\n' || c == '\r'

/-- Parse an unsigned decimal mantissa `digits* ('.' digits*)?` from `cs`:
the value together with the unconsumed suffix, or `none` when no digit at
all occurs (JavaScript `parseFloat` then yields `NaN`). -/
def parseMantissa (cs : List Char) : Option (ℚ × List Char) :=
  let intDs := cs.takeWhile Char.isDigit
  let rest := cs.dropWhile Char.isDigit
  match rest with
  | '.' :: rest2 =>
    let fracDs := rest2.takeWhile Char.isDigit
    let rest3 := rest2.dropWhile Char.isDigit
    if intDs.isEmpty && fracDs.isEmpty then none
    else some (digitsToRat intDs + digitsToRat fracDs / 10 ^ fracDs.length, rest3)
  | _ =>
    if intDs.isEmpty then none
    else some (digitsToRat intDs, rest)

/-- Parse the optional exponent part `([eE][+-]? digits)?`; an exponent
marker that is not followed by digits contributes nothing, as in
`parseFloat("1e")`. -/
def parseExponent (cs : List Char) : ℤ :=
  match cs with
  | c :: rest =>
    if c == 'e' || c == 'E' then
      match rest with
      | '-' :: rest2 =>
        let eds := rest2.takeWhile Char.isDigit
        if eds.isEmpty then 0 else -(digitsToNat eds : ℤ)
      | '+' :: rest2 =>
        let eds := rest2.takeWhile Char.isDigit
        if eds.isEmpty then 0 else (digitsToNat eds : ℤ)
      | _ =>
        let eds := rest.takeWhile Char.isDigit
        if eds.isEmpty then 0 else (digitsToNat eds : ℤ)
    else 0
  | [] => 0

/-- Unsigned part of `parseFloat`: a mantissa scaled by the optional
exponent that follows it. -/
def parseUnsigned (cs : List Char) : Option ℚ :=
  (parseMantissa cs).map (fun p => p.1 * (10 : ℚ) ^ parseExponent p.2)

/-- Embedding of JavaScript `parseFloat` on decimal-number strings: skip
leading whitespace, read an optional sign, then `digits* ('.' digits*)?`
with an optional exponent; `none` stands for `NaN`.  (`Infinity` literals
are outside the modelled domain; no input of this application produces
them.) -/
def jsParseFloat (s : String) : Option ℚ :=
  match s.data.dropWhile isJsSpace with
  | '-' :: rest => (parseUnsigned rest).map (fun q => -q)
  | '+' :: rest => parseUnsigned rest
  | cs => parseUnsigned cs

/-- Embedding of `parseFloat(x) || 0`: `NaN` (and `0` itself) collapse
to `0`. -/
def parseOrZero (s : String) : ℚ := (jsParseFloat s).getD 0

/-- Outputs of the `useMemo` liquidation computation in `Calculator`. -/
structure LiquidationOutputs where
  saldoMovimiento : ℚ
  comision : ℚ
  liquidoCOP : ℚ
  totalBRL : ℚ
deriving DecidableEq

/-- The `useMemo` computation of `Calculator`: parse the three channel
inputs (`parseFloat(..) || 0`), sum them, take the fixed 10% commission,
net the remainder and convert it at the rate when one is known and
positive (`brlCopRate && brlCopRate > 0 ? liquido / brlCopRate : 0`). -/
def computeOutputs (nequi bancolombia daviplata : String) (brlCopRate : Option ℚ) :
    LiquidationOutputs :=
  let nequiValue := parseOrZero nequi
  let bancolombiaValue := parseOrZero bancolombia
  let daviplataValue := parseOrZero daviplata
  let saldo := nequiValue + bancolombiaValue + daviplataValue
  let com := saldo * (0.10 : ℚ)
  let liquido := saldo - com
  let brl := match brlCopRate with
    | some rate => if 0 < rate then liquido / rate else 0
    | none => 0
  ⟨saldo, com, liquido, brl⟩

/-- A confirmed liquidation record (`LiquidationRecord` in `App.tsx`). -/
structure LiquidationRecord where
  id : String
  fecha : String
  valorCop : ℚ
  comisionCop : ℚ
  liquidoCop : ℚ
  tasaBrlCop : ℚ
  totalBrl : ℚ
  comprobanteUrl : String
  comprobanteName : String
deriving DecidableEq

/-- State of the `Calculator` component that the claims depend on. -/
structure CalculatorState where
  nequi : String
  bancolombia : String
  daviplata : String
  selectedDate : String
  comprobanteFile : Option String
  brlCopRate : Option ℚ
  isLoadingRate : Bool
  error : Option String
deriving DecidableEq

/-- The payload `Calculator` hands to `onAddToHistory` on a successful
confirmation (the record minus `id` and `comprobanteUrl`, plus the file). -/
structure NewRecordData where
  fecha : String
  valorCop : ℚ
  comisionCop : ℚ
  liquidoCop : ℚ
  tasaBrlCop : ℚ
  totalBrl : ℚ
  fileName : String
deriving DecidableEq

/-- The blocking prompt shown when confirmation is rejected. -/
def validationMessage : String :=
  "Para registrar, asegúrese de que el \x27Líquido COP\x27 sea mayor a cero y que haya adjuntado un comprobante."

/-- Embedding of `handleRegisterClick` in `Calculator`: the guard
`liquidoCOP <= 0 || !brlCopRate || !comprobanteFile` aborts with a blocking
alert and leaves everything unchanged (`none` payload); otherwise the
record data goes to `onAddToHistory` and the inputs are cleared.
(`!brlCopRate` is JavaScript truthiness: both a `null` rate and a `0` rate
are rejected.)  Returns the next `Calculator` state, the payload passed to
`onAddToHistory`, and the alert message if one was raised here. -/
def handleRegisterClick (s : CalculatorState) :
    CalculatorState × Option NewRecordData × Option String :=
  let o := computeOutputs s.nequi s.bancolombia s.daviplata s.brlCopRate
  match s.brlCopRate, s.comprobanteFile with
  | some rate, some fileName =>
    if o.liquidoCOP ≤ 0 ∨ rate = 0 then (s, none, some validationMessage)
    else
      ({ s with nequi := "", bancolombia := "", daviplata := "", comprobanteFile := none },
        some { fecha := s.selectedDate, valorCop := o.saldoMovimiento, comisionCop := o.comision,
               liquidoCop := o.liquidoCOP, tasaBrlCop := rate, totalBrl := o.totalBRL,
               fileName := fileName },
        none)
  | _, _ => (s, none, some validationMessage)

/-- The record `handleAddToHistory` in `App.tsx` builds from the payload:
a fresh id, an object URL created for the file, and the file name. -/
def mkRecord (data : NewRecordData) (freshId objectUrl : String) : LiquidationRecord :=
  { id := freshId, fecha := data.fecha, valorCop := data.valorCop,
    comisionCop := data.comisionCop, liquidoCop := data.liquidoCop,
    tasaBrlCop := data.tasaBrlCop, totalBrl := data.totalBrl,
    comprobanteUrl := objectUrl, comprobanteName := data.fileName }

/-- Embedding of `handleAddToHistory` in `App.tsx`:
`setHistory(prev => [newRecord, ...prev])`. -/
def handleAddToHistory (data : NewRecordData) (freshId objectUrl : String)
    (history : List LiquidationRecord) : List LiquidationRecord :=
  mkRecord data freshId objectUrl :: history

/-- The register click followed by `App`'s reaction: when `Calculator`
passes a payload, `App.handleAddToHistory` prepends the new record;
otherwise the history is untouched. -/
def registerFlow (s : CalculatorState) (history : List LiquidationRecord)
    (freshId objectUrl : String) : CalculatorState × List LiquidationRecord :=
  match handleRegisterClick s with
  | (s2, some data, _) => (s2, handleAddToHistory data freshId objectUrl history)
  | (s2, none, _) => (s2, history)

/-- Embedding of `handleDeleteRecord` in `App.tsx`: find the record, revoke
its object URL when found, and keep only the records with a different id.
The second component collects the object URLs revoked by the call. -/
def handleDeleteRecord (history : List LiquidationRecord) (recordId : String) :
    List LiquidationRecord × List String :=
  let recordToDelete := history.find? (fun r => r.id == recordId)
  let revoked := match recordToDelete with
    | some r => [r.comprobanteUrl]
    | none => []
  (history.filter (fun r => r.id != recordId), revoked)

/-- Embedding of `handleUpdateRecord` in `App.tsx`:
`prev.map(r => r.id === updated.id ? updated : r)`. -/
def handleUpdateRecord (history : List LiquidationRecord)
    (updatedRecord : LiquidationRecord) : List LiquidationRecord :=
  history.map (fun r => if r.id == updatedRecord.id then updatedRecord else r)

/-- JavaScript `x || 0` on a number: `0` (and `NaN`, not representable
here) collapse to `0`; every other value is kept. -/
def jsOrZero (q : ℚ) : ℚ := if q = 0 then 0 else q

/-- Embedding of the `useEffect` recomputation in `EditModal`: derive
commission, net and BRL total from the edited `valorCop` and `tasaBrlCop`. -/
def editRecompute (formData : LiquidationRecord) : LiquidationRecord :=
  let valorCop := jsOrZero formData.valorCop
  let tasaBrlCop := jsOrZero formData.tasaBrlCop
  let comisionCop := valorCop * (0.10 : ℚ)
  let liquidoCop := valorCop - comisionCop
  let totalBrl := if 0 < tasaBrlCop then liquidoCop / tasaBrlCop else 0
  { formData with comisionCop := comisionCop, liquidoCop := liquidoCop, totalBrl := totalBrl }

/-- The channel-input regex `/^\d*\.?\d*$/`: digits, at most one decimal
point, digits. -/
def matchesChannelPattern (cs : List Char) : Bool :=
  match cs.dropWhile Char.isDigit with
  | [] => true
  | '.' :: rest => rest.all Char.isDigit
  | _ => false

/-- Embedding of `handleInputChange` in `Calculator`: the typed value is
stored only when it matches the channel-input regex. -/
def handleInputChange (current value : String) : String :=
  if matchesChannelPattern value.data then value else current

/-- Decimal digit character for `n < 10`. -/
def digitChar (n : ℕ) : Char := Char.ofNat (48 + n)

/-- Decimal representation of a natural number, most significant digit
first — the embedding of JavaScript number-to-string on integral values. -/
def natToChars (n : ℕ) : List Char :=
  if _h : n < 10 then [digitChar n]
  else natToChars (n / 10) ++ [digitChar (n % 10)]
decreasing_by exact Nat.div_lt_self (by omega) (by omega)

/-- Fractional part of `toFixed(2)`: two digits, zero-padded. -/
def pad2 (n : ℕ) : String := if n < 10 then "0" ++ String.mk (natToChars n) else String.mk (natToChars n)

/-- `Number.prototype.toFixed(2)` on a nonnegative value: round to the
nearest multiple of 1/100 (ties away from zero) and print the integer part,
a point, and exactly two fractional digits. -/
def toFixed2Nonneg (q : ℚ) : String :=
  let n : ℕ := (⌊q * 100 + 1 / 2⌋).toNat
  String.mk (natToChars (n / 100)) ++ "." ++ pad2 (n % 100)

/-- `Number.prototype.toFixed(2)`: a negative value prints as a minus sign
followed by `toFixed(2)` of its magnitude (ECMAScript step `x < 0`). -/
def toFixed2 (q : ℚ) : String :=
  if q < 0 then "-" ++ toFixed2Nonneg (-q) else toFixed2Nonneg q

/-- Embedding of `Array.prototype.join(sep)`. -/
def joinWith (sep : String) : List String → String
  | [] => ""
  | [x] => x
  | x :: xs => x ++ sep ++ joinWith sep xs

/-- The global-replace `"` → `""` of `sanitizeCell`. -/
def escapeQuotes : List Char → List Char
  | [] => []
  | c :: rest => if c = '"' then '"' :: '"' :: escapeQuotes rest else c :: escapeQuotes rest

/-- Character containment test, `String.prototype.includes` on one char. -/
def containsChar (s : String) (c : Char) : Bool := s.data.contains c

/-- Embedding of `sanitizeCell` in `History`: a cell holding a comma, a
double quote or a newline is wrapped in double quotes with the inner
double quotes doubled; any other cell is passed through. -/
def sanitizeCell (cellData : String) : String :=
  if containsChar cellData ',' || containsChar cellData '"' || containsChar cellData '\n' then
    "\"" ++ String.mk (escapeQuotes cellData.data) ++ "\""
  else cellData

/-- The CSV header names, in the order the code lists them. -/
def csvHeaders : List String :=
  ["Fecha", "Valor COP", "Comision COP", "Liquido COP", "TASA BRL/COP", "TOTAL BRL", "COMPROBANTE"]

/-- One CSV data row: the record's fields in the fixed order, the numeric
ones through `toFixed(2)`, the proof name through `sanitizeCell`, joined
with commas. -/
def csvRow (r : LiquidationRecord) : String :=
  joinWith ","
    [r.fecha, toFixed2 r.valorCop, toFixed2 r.comisionCop, toFixed2 r.liquidoCop,
     toFixed2 r.tasaBrlCop, toFixed2 r.totalBrl, sanitizeCell r.comprobanteName]

/-- The date-range predicate of `handleExportCsv`; an empty string is an
unset bound (JavaScript truthiness on the two pickers). -/
def matchesDateRange (startDate endDate fecha : String) : Bool :=
  if startDate == "" && endDate == "" then true
  else
    let recordIsAfterStartDate := if startDate == "" then true else decide (startDate ≤ fecha)
    let recordIsBeforeEndDate := if endDate == "" then true else decide (fecha ≤ endDate)
    recordIsAfterStartDate && recordIsBeforeEndDate

/-- The `records.filter(...)` step of `handleExportCsv`. -/
def filterByDateRange (records : List LiquidationRecord) (startDate endDate : String) :
    List LiquidationRecord :=
  records.filter (fun record => matchesDateRange startDate endDate record.fecha)

/-- Result of the CSV export: either the blocking alert for an empty
filtered set, or the produced CSV text. -/
inductive ExportResult where
  | aborted (message : String)
  | exported (csv : String)
deriving DecidableEq

/-- Embedding of `handleExportCsv` in `History`: filter by the date range,
refuse with an alert when nothing matches, otherwise join the header row
and the data rows with newlines. -/
def handleExportCsv (records : List LiquidationRecord) (startDate endDate : String) :
    ExportResult :=
  let filteredRecords := filterByDateRange records startDate endDate
  if filteredRecords.isEmpty then
    ExportResult.aborted "No hay registros para exportar en el rango de fechas seleccionado."
  else
    ExportResult.exported
      (joinWith "\n" (joinWith "," csvHeaders :: filteredRecords.map csvRow))

/-- A character matched by the rate-extraction regex `[\d.]`. -/
def isTokenChar (c : Char) : Bool := c.isDigit || c == '.'

/-- First match of `/[\d.]+/` in the text: the maximal run of digit-or-dot
characters starting at the first position holding one. -/
def firstNumericToken : List Char → Option (List Char)
  | [] => none
  | c :: rest =>
    if isTokenChar c then some ((c :: rest).takeWhile isTokenChar)
    else firstNumericToken rest

/-- The user-facing message of a failed rate fetch: the inner parse error
is caught and re-thrown with this message. -/
def rateServiceError : String := "Failed to fetch BRL-COP exchange rate from the AI service."

/-- Embedding of `fetchBrlCopRate`: `none` input models a provider or
network failure; otherwise the first `[\d.]+` token of the response text
is parsed with `parseFloat`, and an absent or `NaN` result becomes the
single user-facing fetch error. -/
def fetchBrlCopRate (providerText : Option String) : Except String ℚ :=
  match providerText with
  | none => Except.error rateServiceError
  | some text =>
    match firstNumericToken text.data with
    | some tok =>
      match jsParseFloat (String.mk tok) with
      | some rate => Except.ok rate
      | none => Except.error rateServiceError
    | none => Except.error rateServiceError

/-- Embedding of the `getRate` effect in `Calculator`: a fetched rate is
stored with the error cleared; a failure stores the message and falls back
to a rate of `0`; loading ends either way. -/
def getRate (result : Except String ℚ) (s : CalculatorState) : CalculatorState :=
  match result with
  | Except.ok rate => { s with error := none, brlCopRate := some rate, isLoadingRate := false }
  | Except.error msg => { s with error := some msg, brlCopRate := some 0, isLoadingRate := false }

/-- Shape of a plain two-decimal numeral: an optional minus sign, a
nonempty run of digits, a point, exactly two digits — no currency symbol,
no thousands separator. -/
def twoDecimalNumeral (s : String) : Prop :=
  ∃ sign intDs fracDs, (sign = ([] : List Char) ∨ sign = ['-']) ∧ intDs ≠ [] ∧
    intDs.all Char.isDigit = true ∧ fracDs.length = 2 ∧ fracDs.all Char.isDigit = true ∧
    s.data = sign ++ intDs ++ '.' :: fracDs

example : (computeOutputs "100" "50" "0" (some 750)).saldoMovimiento = 150 := by
  with_unfolding_all decide

example : (computeOutputs "100" "50" "0" (some 750)).comision = 15 := by
  with_unfolding_all decide

example : (computeOutputs "100" "50" "0" (some 750)).liquidoCOP = 135 := by
  with_unfolding_all decide

example : (computeOutputs "100" "50" "0" (some 750)).totalBRL = 9 / 50 := by
  with_unfolding_all decide

example : (computeOutputs "abc" "" "1.5" (some 0)).totalBRL = 0 := by with_unfolding_all decide

example : parseOrZero "12.25" = 49 / 4 := by with_unfolding_all decide

example : parseOrZero "" = 0 := by with_unfolding_all decide

example : parseOrZero "." = 0 := by with_unfolding_all decide

example : parseOrZero ".5" = 1 / 2 := by with_unfolding_all decide

example : jsParseFloat " -2.5e1" = some (-25) := by with_unfolding_all decide

example : jsParseFloat "1.2.3" = some (6 / 5) := by with_unfolding_all decide

example : jsParseFloat "..1" = none := by with_unfolding_all decide

example : matchesChannelPattern "".data = true := by decide

example : matchesChannelPattern "12.5".data = true := by decide

example : matchesChannelPattern ".".data = true := by decide

example : matchesChannelPattern "1.2.3".data = false := by decide

example : matchesChannelPattern "-1".data = false := by decide

example : matchesChannelPattern "1e3".data = false := by decide

example : toFixed2 (9 / 50) = "0.18" := by with_unfolding_all decide

example : toFixed2 135 = "135.00" := by with_unfolding_all decide

example : toFixed2 (-1 / 8) = "-0.13" := by with_unfolding_all decide

example : toFixed2 (1 / 1000) = "0.00" := by with_unfolding_all decide

example : fetchBrlCopRate (some "The rate is 764.2 COP") = Except.ok (3821 / 5) := by
  with_unfolding_all rfl

example : fetchBrlCopRate (some "no numbers here") = Except.error rateServiceError := by rfl

example : fetchBrlCopRate (some "dots ... only") = Except.error rateServiceError := by
  with_unfolding_all rfl

example : fetchBrlCopRate none = Except.error rateServiceError := by rfl

example : matchesDateRange "2024-01-01" "" "2024-03-05" = true := by with_unfolding_all decide

example : matchesDateRange "2024-04-01" "" "2024-03-05" = false := by with_unfolding_all decide

example : matchesDateRange "" "" "whatever" = true := by decide

/-- The date-range predicate in propositional form. -/
lemma matchesDateRange_iff (startDate endDate fecha : String) :
    matchesDateRange startDate endDate fecha = true ↔
      (startDate = "" ∨ startDate ≤ fecha) ∧ (endDate = "" ∨ fecha ≤ endDate) := by
  unfold matchesDateRange
  by_cases hs : startDate = "" <;> by_cases he : endDate = "" <;>
    simp [hs, he]

/-- Any of the three guard conditions makes `handleRegisterClick` abort
with the validation alert and leave everything unchanged. -/
lemma handleRegisterClick_rejected (s : CalculatorState)
    (h : (computeOutputs s.nequi s.bancolombia s.daviplata s.brlCopRate).liquidoCOP ≤ 0
       ∨ s.brlCopRate = none ∨ s.brlCopRate = some 0 ∨ s.comprobanteFile = none) :
    handleRegisterClick s = (s, none, some validationMessage) := by
  unfold handleRegisterClick
  cases hr : s.brlCopRate with
  | none => cases hf : s.comprobanteFile <;> rfl
  | some rate =>
    cases hf : s.comprobanteFile with
    | none => rfl
    | some f =>
      dsimp only
      rw [if_pos]
      rcases h with h1 | h1 | h1 | h1
      · rw [hr] at h1
        exact Or.inl h1
      · rw [hr] at h1
        exact absurd h1 (by simp)
      · rw [hr] at h1
        exact Or.inr (by injection h1)
      · rw [hf] at h1
        exact absurd h1 (by simp)

/-- A rejected click leaves the history unchanged through `registerFlow`. -/
lemma registerFlow_rejected (s : CalculatorState) (history : List LiquidationRecord)
    (freshId objectUrl : String)
    (h : (computeOutputs s.nequi s.bancolombia s.daviplata s.brlCopRate).liquidoCOP ≤ 0
       ∨ s.brlCopRate = none ∨ s.brlCopRate = some 0 ∨ s.comprobanteFile = none) :
    registerFlow s history freshId objectUrl = (s, history) := by
  unfold registerFlow
  rw [handleRegisterClick_rejected s h]

/-- `x || 0` on a rational is the identity. -/
lemma jsOrZero_eq (q : ℚ) : jsOrZero q = q := by
  rcases eq_or_ne q 0 with h | h <;> simp [jsOrZero, h]

/-- The digit fold stays nonnegative from a nonnegative accumulator. -/
lemma foldl_digits_nonneg (ds : List Char) (a : ℚ) (ha : 0 ≤ a) :
    0 ≤ ds.foldl (fun a c => 10 * a + (digitVal c : ℚ)) a := by
  induction ds generalizing a with
  | nil => exact ha
  | cons c rest ih =>
    exact ih _ (by positivity)

/-- The rational value of a digit run is nonnegative. -/
lemma digitsToRat_nonneg (ds : List Char) : 0 ≤ digitsToRat ds :=
  foldl_digits_nonneg ds 0 le_rfl

/-- A parsed mantissa is nonnegative. -/
lemma parseMantissa_nonneg (cs : List Char) (q : ℚ) (rest : List Char)
    (h : parseMantissa cs = some (q, rest)) : 0 ≤ q := by
  unfold parseMantissa at h
  dsimp only at h
  split at h
  · split at h
    · cases h
    · injection h with h1
      injection h1 with h2 h3
      subst h2
      exact add_nonneg (digitsToRat_nonneg _)
        (div_nonneg (digitsToRat_nonneg _) (by positivity))
  · split at h
    · cases h
    · injection h with h1
      injection h1 with h2 h3
      subst h2
      exact digitsToRat_nonneg _

/-- A parsed unsigned number is nonnegative. -/
lemma parseUnsigned_nonneg (cs : List Char) (q : ℚ) (h : parseUnsigned cs = some q) :
    0 ≤ q := by
  unfold parseUnsigned at h
  cases hm : parseMantissa cs with
  | none => rw [hm] at h; cases h
  | some p =>
    rw [hm] at h
    injection h with h1
    subst h1
    exact mul_nonneg (parseMantissa_nonneg cs p.1 p.2 (by rw [hm]))
      (zpow_nonneg (by norm_num) _)

/-- Every character of a string accepted by the channel regex is a digit
or a dot. -/
lemma matchesChannelPattern_chars (cs : List Char) (h : matchesChannelPattern cs = true) :
    ∀ c ∈ cs, c.isDigit = true ∨ c = '.' := by
  intro c hc
  have hsplit := List.takeWhile_append_dropWhile (p := Char.isDigit) (l := cs)
  rw [← hsplit] at hc
  rcases List.mem_append.mp hc with hmem | hmem
  · exact Or.inl (List.mem_takeWhile_imp hmem)
  · unfold matchesChannelPattern at h
    split at h
    · rename_i heq
      rw [heq] at hmem
      cases hmem
    · rename_i rest heq
      rw [heq] at hmem
      rcases List.mem_cons.mp hmem with rfl | hmem2
      · exact Or.inr rfl
      · exact Or.inl (by simpa using List.all_eq_true.mp h _ hmem2)
    · simp at h

/-- A digit or a dot is no whitespace and no sign character. -/
lemma digit_or_dot_not_special (c : Char) (h : c.isDigit = true ∨ c = '.') :
    isJsSpace c = false ∧ c ≠ '-' ∧ c ≠ '+' := by
  have hne : c ≠ ' ' ∧ c ≠ '\t' ∧ c ≠ '\n' ∧ c ≠ '\r' ∧ c ≠ '-' ∧ c ≠ '+' := by
    rcases h with hd | rfl
    · refine ⟨?_, ?_, ?_, ?_, ?_, ?_⟩ <;> (rintro rfl; exact absurd hd (by decide))
    · refine ⟨?_, ?_, ?_, ?_, ?_, ?_⟩ <;> decide
  refine ⟨?_, hne.2.2.2.2.1, hne.2.2.2.2.2⟩
  simp [isJsSpace, hne.1, hne.2.1, hne.2.2.1, hne.2.2.2.1]

/-- On a regex-accepted input, `parseFloat` yields a nonnegative value
when it yields one at all. -/
lemma jsParseFloat_nonneg (s : String) (h : matchesChannelPattern s.data = true)
    (q : ℚ) (hq : jsParseFloat s = some q) : 0 ≤ q := by
  unfold jsParseFloat at hq
  have hchars := matchesChannelPattern_chars s.data h
  cases hd : s.data with
  | nil =>
    rw [hd] at hq
    cases hq
  | cons c rest =>
    have hcs := hchars c (by rw [hd]; exact List.mem_cons_self c rest)
    have hspec := digit_or_dot_not_special c hcs
    rw [hd, List.dropWhile_cons, hspec.1] at hq
    split at hq
    · rename_i heq
      injection heq with hch
      exact absurd hch hspec.2.1
    · rename_i heq
      injection heq with hch
      exact absurd hch hspec.2.2
    · exact parseUnsigned_nonneg _ q hq

/-- On a regex-accepted input, `parseFloat(x) || 0` is nonnegative. -/
lemma parseOrZero_nonneg (s : String) (h : matchesChannelPattern s.data = true) :
    0 ≤ parseOrZero s := by
  unfold parseOrZero
  cases hq : jsParseFloat s with
  | none => simp
  | some q => simpa using jsParseFloat_nonneg s h q hq

/-- String concatenation concatenates the character data. -/
lemma strData_append (a b : String) : (a ++ b).data = a.data ++ b.data := by
  cases a
  cases b
  rfl

/-- `digitChar` of a value below ten is a digit character. -/
lemma digitChar_isDigit (k : ℕ) (h : k < 10) : (digitChar k).isDigit = true := by
  interval_cases k <;> decide

/-- The decimal rendering of a natural number is a nonempty digit run. -/
lemma natToChars_spec (n : ℕ) : natToChars n ≠ [] ∧ (natToChars n).all Char.isDigit = true := by
  induction n using Nat.strong_induction_on with
  | _ n ih =>
    unfold natToChars
    split
    · rename_i h
      exact ⟨by simp, by simp [digitChar_isDigit n h]⟩
    · rename_i h
      have ihh := ih (n / 10) (Nat.div_lt_self (by omega) (by omega))
      refine ⟨by simp, ?_⟩
      rw [List.all_append]
      rw [ihh.2]
      simp [digitChar_isDigit (n % 10) (Nat.mod_lt _ (by omega))]

/-- Below ten the rendering is the single digit character. -/
lemma natToChars_lt10 (k : ℕ) (h : k < 10) : natToChars k = [digitChar k] := by
  unfold natToChars
  rw [dif_pos h]

/-- The two-digit fraction field: exactly two digit characters. -/
lemma pad2_spec (m : ℕ) (h : m < 100) :
    (pad2 m).data.length = 2 ∧ (pad2 m).data.all Char.isDigit = true := by
  unfold pad2
  split
  · rename_i h10
    rw [natToChars_lt10 m h10]
    refine ⟨?_, ?_⟩
    · rfl
    · have : ("0" ++ String.mk [digitChar m]).data = '0' :: [digitChar m] := rfl
      rw [this]
      simp [digitChar_isDigit m h10]
  · rename_i h10
    have h2 : natToChars m = [digitChar (m / 10), digitChar (m % 10)] := by
      unfold natToChars
      rw [dif_neg h10]
      rw [natToChars_lt10 (m / 10) (by omega)]
      rfl
    rw [h2]
    refine ⟨rfl, ?_⟩
    simp [digitChar_isDigit (m / 10) (by omega), digitChar_isDigit (m % 10) (Nat.mod_lt _ (by omega))]

/-- `toFixed2Nonneg` produces an unsigned two-decimal numeral. -/
lemma toFixed2Nonneg_shape (q : ℚ) :
    ∃ intDs fracDs, intDs ≠ [] ∧ intDs.all Char.isDigit = true ∧
      fracDs.length = 2 ∧ fracDs.all Char.isDigit = true ∧
      (toFixed2Nonneg q).data = intDs ++ '.' :: fracDs := by
  unfold toFixed2Nonneg
  refine ⟨natToChars ((⌊q * 100 + 1 / 2⌋).toNat / 100),
    (pad2 ((⌊q * 100 + 1 / 2⌋).toNat % 100)).data,
    (natToChars_spec _).1, (natToChars_spec _).2,
    (pad2_spec _ (Nat.mod_lt _ (by omega))).1, (pad2_spec _ (Nat.mod_lt _ (by omega))).2, ?_⟩
  rw [strData_append, strData_append]
  simp

/-- `toFixed2` always prints a two-decimal numeral. -/
lemma toFixed2_twoDecimal (q : ℚ) : twoDecimalNumeral (toFixed2 q) := by
  unfold toFixed2
  split
  · obtain ⟨intDs, fracDs, h1, h2, h3, h4, h5⟩ := toFixed2Nonneg_shape (-q)
    exact ⟨['-'], intDs, fracDs, Or.inr rfl, h1, h2, h3, h4, by rw [strData_append, h5]; rfl⟩
  · obtain ⟨intDs, fracDs, h1, h2, h3, h4, h5⟩ := toFixed2Nonneg_shape q
    exact ⟨[], intDs, fracDs, Or.inl rfl, h1, h2, h3, h4, by rw [h5]; rfl⟩

/-- The quote-doubling pass, characterised pointwise. -/
lemma escapeQuotes_eq_flatMap (cs : List Char) :
    escapeQuotes cs = cs.flatMap (fun c => if c = '"' then ['"', '"'] else [c]) := by
  induction cs with
  | nil => rfl
  | cons c rest ih => by_cases hc : c = '"' <;> simp [escapeQuotes, hc, ih]

/-- C5: the date-range listing returns exactly the records whose date lies
within whichever bounds are supplied (empty string = bound omitted), in
stored order; with both bounds omitted it returns the full set. -/
theorem listByDateRange_spec (records : List LiquidationRecord) (startDate endDate : String) :
    (∀ r, r ∈ filterByDateRange records startDate endDate ↔
        r ∈ records ∧ (startDate = "" ∨ startDate ≤ r.fecha) ∧
          (endDate = "" ∨ r.fecha ≤ endDate)) ∧
    (filterByDateRange records startDate endDate).Sublist records ∧
    (startDate = "" → endDate = "" → filterByDateRange records startDate endDate = records) := by
  refine ⟨fun r => ?_, List.filter_sublist _, fun hs he => ?_⟩
  · rw [filterByDateRange, List.mem_filter, matchesDateRange_iff]
  · subst hs he
    rw [filterByDateRange, List.filter_eq_self]
    intro r _
    rw [matchesDateRange_iff]
    simp

/-- Closed instance of `listByDateRange_spec`. -/
theorem listByDateRange_spec_witness :
    filterByDateRange [] "" "" = ([] : List LiquidationRecord) :=
  (listByDateRange_spec [] "" "").2.2 rfl rfl

/-- C4: with zero matching records the export aborts with a blocking
alert and produces no CSV; a produced CSV always holds at least one data
row below the header, never the header alone. -/
theorem export_empty_guard (records : List LiquidationRecord) (startDate endDate : String) :
    (filterByDateRange records startDate endDate = [] →
        handleExportCsv records startDate endDate =
          ExportResult.aborted
            "No hay registros para exportar en el rango de fechas seleccionado.") ∧
    (∀ csv, handleExportCsv records startDate endDate = ExportResult.exported csv →
        filterByDateRange records startDate endDate ≠ [] ∧
        ∃ body, csv = joinWith "," csvHeaders ++ "\n" ++ body) := by
  constructor
  · intro h
    unfold handleExportCsv
    rw [h]
    rfl
  · intro csv h
    unfold handleExportCsv at h
    cases hf : filterByDateRange records startDate endDate with
    | nil => rw [hf] at h; exact absurd h (by simp)
    | cons r rest =>
      rw [hf] at h
      simp only [List.isEmpty_cons, if_neg] at h
      refine ⟨by simp, ?_⟩
      cases h
      cases rest with
      | nil => exact ⟨csvRow r, rfl⟩
      | cons r2 rest2 => exact ⟨joinWith "\n" (csvRow r :: (r2 :: rest2).map csvRow), rfl⟩

/-- Closed instance of `export_empty_guard`: the empty store exports to an
abort, never to a header-only CSV. -/
theorem export_empty_guard_witness :
    handleExportCsv [] "2024-01-01" "2024-12-31" =
      ExportResult.aborted "No hay registros para exportar en el rango de fechas seleccionado." :=
  (export_empty_guard [] "2024-01-01" "2024-12-31").1 rfl

/-- C6: `add` prepends the new record, so the new record is first and the
previous records follow in their prior order, whatever their date fields
hold. -/
theorem add_prepends (data : NewRecordData) (freshId objectUrl : String)
    (history : List LiquidationRecord) :
    handleAddToHistory data freshId objectUrl history =
      mkRecord data freshId objectUrl :: history ∧
    (handleAddToHistory data freshId objectUrl history).head? =
      some (mkRecord data freshId objectUrl) ∧
    (handleAddToHistory data freshId objectUrl history).tail = history ∧
    (handleAddToHistory data freshId objectUrl history).length = history.length + 1 ∧
    ∀ i : ℕ, (handleAddToHistory data freshId objectUrl history)[i + 1]? = history[i]? := by
  refine ⟨rfl, rfl, rfl, rfl, fun i => ?_⟩
  simp [handleAddToHistory]

/-- C7: removing an id leaves no record with that id, keeps the others in
their relative order, revokes the found record's object URL exactly once,
and is a revoke-free no-op when the id is absent. -/
theorem remove_spec (history : List LiquidationRecord) (recordId : String) :
    (∀ r ∈ (handleDeleteRecord history recordId).1, r.id ≠ recordId) ∧
    (handleDeleteRecord history recordId).1.Sublist history ∧
    (∀ r ∈ history, r.id ≠ recordId → r ∈ (handleDeleteRecord history recordId).1) ∧
    (∀ r, history.find? (fun r2 => r2.id == recordId) = some r →
        (handleDeleteRecord history recordId).2 = [r.comprobanteUrl]) ∧
    ((∀ r ∈ history, r.id ≠ recordId) →
        handleDeleteRecord history recordId = (history, [])) := by
  refine ⟨?_, ?_, ?_, ?_, ?_⟩
  · intro r hr
    have := (List.mem_filter.mp hr).2
    simpa using this
  · exact List.filter_sublist _
  · intro r hr hne
    exact List.mem_filter.mpr ⟨hr, by simpa using hne⟩
  · intro r hfind
    unfold handleDeleteRecord
    rw [hfind]
  · intro hall
    unfold handleDeleteRecord
    have hnone : history.find? (fun r2 => r2.id == recordId) = none := by
      rw [List.find?_eq_none]
      intro r hr
      simpa using hall r hr
    rw [hnone]
    rw [List.filter_eq_self.mpr]
    intro r hr
    simpa using hall r hr

/-- Closed instance of `remove_spec`: removing from a one-record store. -/
theorem remove_spec_witness :
    (handleDeleteRecord [⟨"a", "2024-01-01", 100, 10, 90, 500, 9 / 50, "blob:u", "f.png"⟩] "a").2 =
      ["blob:u"] :=
  (remove_spec [⟨"a", "2024-01-01", 100, 10, 90, 500, 9 / 50, "blob:u", "f.png"⟩] "a").2.2.2.1
    ⟨"a", "2024-01-01", 100, 10, 90, 500, 9 / 50, "blob:u", "f.png"⟩ (by rfl)

/-- C8: update replaces exactly the records whose id matches, keeps every
other position unchanged, preserves length and order, and is a silent
no-op when no id matches. -/
theorem update_spec (history : List LiquidationRecord) (u : LiquidationRecord) :
    (handleUpdateRecord history u).length = history.length ∧
    (∀ (i : ℕ) r, history[i]? = some r → r.id ≠ u.id →
        (handleUpdateRecord history u)[i]? = some r) ∧
    (∀ (i : ℕ) r, history[i]? = some r → r.id = u.id →
        (handleUpdateRecord history u)[i]? = some u) ∧
    ((∀ r ∈ history, r.id ≠ u.id) → handleUpdateRecord history u = history) := by
  refine ⟨List.length_map _ _, ?_, ?_, ?_⟩
  · intro i r hi hne
    unfold handleUpdateRecord
    rw [List.getElem?_map, hi]
    simp [hne]
  · intro i r hi heq
    unfold handleUpdateRecord
    rw [List.getElem?_map, hi]
    simp [heq]
  · intro hall
    unfold handleUpdateRecord
    conv_rhs => rw [← List.map_id history]
    apply List.map_congr_left
    intro r hr
    simp [hall r hr]

/-- Closed instance of `update_spec`: updating an id that is not present
leaves the one-record store unchanged. -/
theorem update_spec_witness :
    handleUpdateRecord [⟨"a", "2024-01-01", 100, 10, 90, 500, 9 / 50, "blob:u", "f.png"⟩]
        ⟨"b", "2024-02-02", 200, 20, 180, 500, 9 / 25, "blob:v", "g.png"⟩ =
      [⟨"a", "2024-01-01", 100, 10, 90, 500, 9 / 50, "blob:u", "f.png"⟩] :=
  (update_spec [⟨"a", "2024-01-01", 100, 10, 90, 500, 9 / 50, "blob:u", "f.png"⟩]
      ⟨"b", "2024-02-02", 200, 20, 180, 500, 9 / 25, "blob:v", "g.png"⟩).2.2.2
    (by intro r hr; simp at hr; subst hr; decide)

/-- C2: a confirmation attempt with non-positive net, an unset or zero
(fallback) rate, or no attached proof is rejected: the blocking validation
alert is raised, no payload reaches the store, and neither the calculator
state nor the history changes. -/
theorem validation_rejects (s : CalculatorState) (history : List LiquidationRecord)
    (freshId objectUrl : String)
    (h : (computeOutputs s.nequi s.bancolombia s.daviplata s.brlCopRate).liquidoCOP ≤ 0
       ∨ s.brlCopRate = none ∨ s.brlCopRate = some 0 ∨ s.comprobanteFile = none) :
    handleRegisterClick s = (s, none, some validationMessage) ∧
    registerFlow s history freshId objectUrl = (s, history) :=
  ⟨handleRegisterClick_rejected s h, registerFlow_rejected s history freshId objectUrl h⟩

/-- Closed instance of `validation_rejects`: no proof file attached. -/
theorem validation_rejects_witness :
    handleRegisterClick ⟨"100", "", "", "2024-01-01", none, some 750, false, none⟩ =
      (⟨"100", "", "", "2024-01-01", none, some 750, false, none⟩, none,
        some validationMessage) ∧
    registerFlow ⟨"100", "", "", "2024-01-01", none, some 750, false, none⟩ [] "id1" "blob:u" =
      (⟨"100", "", "", "2024-01-01", none, some 750, false, none⟩, []) :=
  validation_rejects ⟨"100", "", "", "2024-01-01", none, some 750, false, none⟩ [] "id1" "blob:u"
    (Or.inr (Or.inr (Or.inr rfl)))

/-- C9: the rate is the first `[\d.]+` token of the provider text parsed
with `parseFloat`; a missing or unparseable token, like a provider
failure, yields the single fetch error, upon which the caller stores the
message as inline text, falls back to a rate of `0`, and every
confirmation attempt from that state is blocked. -/
theorem rate_fetch_spec (text : String) (s : CalculatorState)
    (history : List LiquidationRecord) (freshId objectUrl : String) :
    (∀ tok q, firstNumericToken text.data = some tok →
        jsParseFloat (String.mk tok) = some q → fetchBrlCopRate (some text) = Except.ok q) ∧
    (firstNumericToken text.data = none →
        fetchBrlCopRate (some text) = Except.error rateServiceError) ∧
    (∀ tok, firstNumericToken text.data = some tok → jsParseFloat (String.mk tok) = none →
        fetchBrlCopRate (some text) = Except.error rateServiceError) ∧
    fetchBrlCopRate none = Except.error rateServiceError ∧
    (∀ msg, getRate (Except.error msg) s =
        { s with error := some msg, brlCopRate := some 0, isLoadingRate := false }) ∧
    (∀ msg, registerFlow (getRate (Except.error msg) s) history freshId objectUrl =
        (getRate (Except.error msg) s, history)) := by
  refine ⟨?_, ?_, ?_, rfl, fun msg => rfl, fun msg => ?_⟩
  · intro tok q htok hq
    unfold fetchBrlCopRate
    dsimp only
    rw [htok]
    dsimp only
    rw [hq]
  · intro htok
    unfold fetchBrlCopRate
    dsimp only
    rw [htok]
  · intro tok htok hq
    unfold fetchBrlCopRate
    dsimp only
    rw [htok]
    dsimp only
    rw [hq]
  · exact registerFlow_rejected _ history freshId objectUrl (Or.inr (Or.inr (Or.inl rfl)))

/-- Closed instance of `rate_fetch_spec`: a response without digits fails,
and the fallback state blocks confirmation. -/
theorem rate_fetch_spec_witness :
    fetchBrlCopRate (some "no rate available") = Except.error rateServiceError ∧
    registerFlow
        (getRate (Except.error rateServiceError)
          ⟨"100", "", "", "2024-01-01", some "f.png", none, true, none⟩)
        [] "id1" "blob:u" =
      (getRate (Except.error rateServiceError)
          ⟨"100", "", "", "2024-01-01", some "f.png", none, true, none⟩, []) :=
  ⟨(rate_fetch_spec "no rate available"
        ⟨"100", "", "", "2024-01-01", some "f.png", none, true, none⟩ [] "id1" "blob:u").2.1
      (by decide),
    (rate_fetch_spec "no rate available"
        ⟨"100", "", "", "2024-01-01", some "f.png", none, true, none⟩ [] "id1" "blob:u").2.2.2.2.2
      rateServiceError⟩

/-- C1: for all channel inputs (malformed input parsing to 0) and any
rate, the liquidation returns gross = nequi + bancolombia + daviplata,
commission = gross × 0.10, net = gross − commission, totalBRL = net / rate
for a positive rate and 0 for a zero or absent rate; the edit
recomputation obeys the same formulas on its gross `valorCop`. -/
theorem liquidation_formulas (nequi bancolombia daviplata : String) (rate : ℚ)
    (hrate : 0 < rate) (fd : LiquidationRecord) (hfd : 0 < fd.tasaBrlCop) :
    (computeOutputs nequi bancolombia daviplata (some rate)).saldoMovimiento =
      parseOrZero nequi + parseOrZero bancolombia + parseOrZero daviplata ∧
    (computeOutputs nequi bancolombia daviplata (some rate)).comision =
      (computeOutputs nequi bancolombia daviplata (some rate)).saldoMovimiento * (0.10 : ℚ) ∧
    (computeOutputs nequi bancolombia daviplata (some rate)).liquidoCOP =
      (computeOutputs nequi bancolombia daviplata (some rate)).saldoMovimiento -
        (computeOutputs nequi bancolombia daviplata (some rate)).comision ∧
    (computeOutputs nequi bancolombia daviplata (some rate)).totalBRL =
      (computeOutputs nequi bancolombia daviplata (some rate)).liquidoCOP / rate ∧
    (computeOutputs nequi bancolombia daviplata (some 0)).totalBRL = 0 ∧
    (computeOutputs nequi bancolombia daviplata none).totalBRL = 0 ∧
    (editRecompute fd).comisionCop = fd.valorCop * (0.10 : ℚ) ∧
    (editRecompute fd).liquidoCop = fd.valorCop - (editRecompute fd).comisionCop ∧
    (editRecompute fd).totalBrl = (editRecompute fd).liquidoCop / fd.tasaBrlCop ∧
    (∀ fd2 : LiquidationRecord, fd2.tasaBrlCop = 0 → (editRecompute fd2).totalBrl = 0) := by
  refine ⟨rfl, rfl, rfl, ?_, ?_, rfl, ?_, ?_, ?_, ?_⟩
  · unfold computeOutputs
    dsimp only
    rw [if_pos hrate]
  · unfold computeOutputs
    dsimp only
    rw [if_neg (lt_irrefl 0)]
  · unfold editRecompute
    dsimp only
    rw [jsOrZero_eq]
  · unfold editRecompute
    dsimp only
    rw [jsOrZero_eq]
  · unfold editRecompute
    dsimp only
    rw [jsOrZero_eq fd.tasaBrlCop, if_pos hfd, jsOrZero_eq]
  · intro fd2 h0
    unfold editRecompute
    dsimp only
    rw [h0]
    rfl

/-- Closed instance of `liquidation_formulas` at the inputs
`nequi = "100"`, `bancolombia = "50"`, `daviplata = "0"`, rate `750`. -/
theorem liquidation_formulas_witness :
    (computeOutputs "100" "50" "0" (some 750)).saldoMovimiento =
      parseOrZero "100" + parseOrZero "50" + parseOrZero "0" ∧
    (computeOutputs "100" "50" "0" (some 750)).comision =
      (computeOutputs "100" "50" "0" (some 750)).saldoMovimiento * (0.10 : ℚ) ∧
    (computeOutputs "100" "50" "0" (some 750)).liquidoCOP =
      (computeOutputs "100" "50" "0" (some 750)).saldoMovimiento -
        (computeOutputs "100" "50" "0" (some 750)).comision ∧
    (computeOutputs "100" "50" "0" (some 750)).totalBRL =
      (computeOutputs "100" "50" "0" (some 750)).liquidoCOP / 750 ∧
    (computeOutputs "100" "50" "0" (some 0)).totalBRL = 0 ∧
    (computeOutputs "100" "50" "0" none).totalBRL = 0 ∧
    (editRecompute ⟨"a", "2024-01-01", 200, 0, 0, 500, 0, "blob:u", "f.png"⟩).comisionCop =
      (200 : ℚ) * (0.10 : ℚ) ∧
    (editRecompute ⟨"a", "2024-01-01", 200, 0, 0, 500, 0, "blob:u", "f.png"⟩).liquidoCop =
      200 - (editRecompute ⟨"a", "2024-01-01", 200, 0, 0, 500, 0, "blob:u", "f.png"⟩).comisionCop ∧
    (editRecompute ⟨"a", "2024-01-01", 200, 0, 0, 500, 0, "blob:u", "f.png"⟩).totalBrl =
      (editRecompute ⟨"a", "2024-01-01", 200, 0, 0, 500, 0, "blob:u", "f.png"⟩).liquidoCop / 500 ∧
    (∀ fd2 : LiquidationRecord, fd2.tasaBrlCop = 0 → (editRecompute fd2).totalBrl = 0) :=
  liquidation_formulas "100" "50" "0" 750 (by decide)
    ⟨"a", "2024-01-01", 200, 0, 0, 500, 0, "blob:u", "f.png"⟩ (by decide)

/-- C10: a typed channel value is stored exactly when it matches
`/^\d*\.?\d*$/`; every accepted value parses to a nonnegative number, so
gross, commission and net are nonnegative whenever the three stored
channel inputs satisfy the pattern (as every UI-reachable state does,
the initial value `""` included). -/
theorem input_validation_spec (current value nequi bancolombia daviplata : String)
    (rate : Option ℚ)
    (hn : matchesChannelPattern nequi.data = true)
    (hb : matchesChannelPattern bancolombia.data = true)
    (hd : matchesChannelPattern daviplata.data = true) :
    (matchesChannelPattern value.data = true → handleInputChange current value = value) ∧
    (matchesChannelPattern value.data = false → handleInputChange current value = current) ∧
    matchesChannelPattern "".data = true ∧
    0 ≤ parseOrZero nequi ∧
    0 ≤ (computeOutputs nequi bancolombia daviplata rate).saldoMovimiento ∧
    0 ≤ (computeOutputs nequi bancolombia daviplata rate).comision ∧
    0 ≤ (computeOutputs nequi bancolombia daviplata rate).liquidoCOP := by
  have hsum : 0 ≤ parseOrZero nequi + parseOrZero bancolombia + parseOrZero daviplata :=
    add_nonneg (add_nonneg (parseOrZero_nonneg nequi hn) (parseOrZero_nonneg bancolombia hb))
      (parseOrZero_nonneg daviplata hd)
  refine ⟨fun hv => ?_, fun hv => ?_, rfl, parseOrZero_nonneg nequi hn, hsum, ?_, ?_⟩
  · unfold handleInputChange
    rw [if_pos hv]
  · unfold handleInputChange
    rw [hv]
    rfl
  · show 0 ≤ (parseOrZero nequi + parseOrZero bancolombia + parseOrZero daviplata) * (0.10 : ℚ)
    exact mul_nonneg hsum (by norm_num)
  · show 0 ≤ parseOrZero nequi + parseOrZero bancolombia + parseOrZero daviplata -
      (parseOrZero nequi + parseOrZero bancolombia + parseOrZero daviplata) * (0.10 : ℚ)
    nlinarith [hsum]

/-- Closed instance of `input_validation_spec` at accepted inputs
`"12.5"`, `""`, `"."` and the rejected typed value `"1.2.3"`. -/
theorem input_validation_spec_witness :
    (matchesChannelPattern "1.2.3".data = true → handleInputChange "1" "1.2.3" = "1.2.3") ∧
    (matchesChannelPattern "1.2.3".data = false → handleInputChange "1" "1.2.3" = "1") ∧
    matchesChannelPattern "".data = true ∧
    0 ≤ parseOrZero "12.5" ∧
    0 ≤ (computeOutputs "12.5" "" "." (some 750)).saldoMovimiento ∧
    0 ≤ (computeOutputs "12.5" "" "." (some 750)).comision ∧
    0 ≤ (computeOutputs "12.5" "" "." (some 750)).liquidoCOP :=
  input_validation_spec "1" "1.2.3" "12.5" "" "." (some 750) (by decide) (by decide) (by decide)

/-- Counterexample to quoting every field: a date field holding commas is
emitted verbatim, not wrapped in double quotes, so the row differs from
the one the claimed all-field quoting would produce. -/
theorem csv_quoting_counterexample :
    containsChar "2024,01,01" ',' = true ∧
    csvRow ⟨"r1", "2024,01,01", 100, 10, 90, 500, 9 / 50, "blob:u", "proof.png"⟩ =
      "2024,01,01,100.00,10.00,90.00,500.00,0.18,proof.png" ∧
    sanitizeCell "2024,01,01" = "\"2024,01,01\"" ∧
    csvRow ⟨"r1", "2024,01,01", 100, 10, 90, 500, 9 / 50, "blob:u", "proof.png"⟩ ≠
      joinWith "," [sanitizeCell "2024,01,01", toFixed2 100, toFixed2 10, toFixed2 90,
        toFixed2 500, toFixed2 (9 / 50), sanitizeCell "proof.png"] := by
  refine ⟨by decide, ?_, by decide, ?_⟩
  · with_unfolding_all decide
  · with_unfolding_all decide

/-- C3 (amended): a produced CSV is the comma-joined literal header names
followed by one comma-joined row per filtered record, rows joined with
`\n`; every numeric field is a plain two-decimal numeral with `.` as the
decimal point; the proof-name field — the one field the code escapes — is
wrapped in double quotes with inner quotes doubled exactly when it holds
a comma, a double quote or a newline, and is passed through otherwise. -/
theorem csv_format_spec (records : List LiquidationRecord) (startDate endDate : String)
    (csv : String)
    (h : handleExportCsv records startDate endDate = ExportResult.exported csv) :
    csv = joinWith "\n"
        (joinWith "," csvHeaders :: (filterByDateRange records startDate endDate).map csvRow) ∧
    (∀ q : ℚ, twoDecimalNumeral (toFixed2 q)) ∧
    (∀ cell, (containsChar cell ',' || containsChar cell '"' || containsChar cell '\n') = true →
        sanitizeCell cell = "\"" ++ String.mk (escapeQuotes cell.data) ++ "\"") ∧
    (∀ cell, (containsChar cell ',' || containsChar cell '"' || containsChar cell '\n') = false →
        sanitizeCell cell = cell) ∧
    (∀ cs, escapeQuotes cs = cs.flatMap (fun c => if c = '"' then ['"', '"'] else [c])) := by
  refine ⟨?_, toFixed2_twoDecimal, ?_, ?_, escapeQuotes_eq_flatMap⟩
  · unfold handleExportCsv at h
    dsimp only at h
    split at h
    · cases h
    · injection h with h1
      exact h1.symm
  · intro cell hc
    unfold sanitizeCell
    rw [if_pos hc]
  · intro cell hc
    unfold sanitizeCell
    rw [hc]
    rfl

/-- Closed instance of `csv_format_spec` on a one-record store whose
proof name needs quoting. -/
theorem csv_format_spec_witness :
    joinWith "\n"
        [joinWith "," csvHeaders,
          csvRow ⟨"r1", "2024-01-01", 100, 10, 90, 500, 9 / 50, "blob:u", "a,b.png"⟩] =
      joinWith "\n"
        (joinWith "," csvHeaders ::
          (filterByDateRange
              [⟨"r1", "2024-01-01", 100, 10, 90, 500, 9 / 50, "blob:u", "a,b.png"⟩] "" "").map
            csvRow) ∧
    (∀ q : ℚ, twoDecimalNumeral (toFixed2 q)) ∧
    (∀ cell, (containsChar cell ',' || containsChar cell '"' || containsChar cell '\n') = true →
        sanitizeCell cell = "\"" ++ String.mk (escapeQuotes cell.data) ++ "\"") ∧
    (∀ cell, (containsChar cell ',' || containsChar cell '"' || containsChar cell '\n') = false →
        sanitizeCell cell = cell) ∧
    (∀ cs, escapeQuotes cs = cs.flatMap (fun c => if c = '"' then ['"', '"'] else [c])) :=
  csv_format_spec [⟨"r1", "2024-01-01", 100, 10, 90, 500, 9 / 50, "blob:u", "a,b.png"⟩] "" ""
    (joinWith "\n"
      [joinWith "," csvHeaders,
        csvRow ⟨"r1", "2024-01-01", 100, 10, 90, 500, 9 / 50, "blob:u", "a,b.png"⟩])
    (by with_unfolding_all decide)
